import Mathlib

/-!
# Color Dash — verification of the game simulation core

This file shallowly embeds the simulation core of the two Color Dash
implementations (`chatgpt.py` and `gemini.py`) and proves properties of the
embedded definitions.

Conventions of the embedding:
* Python ints become `Int`; Python floats that only ever hold exact halves /
  tenths (fall speeds, y positions, spawn delays, timestamps) become `ℚ`.
* Randomness (shape colour, kind, x position) and the monotonic clock are
  modelled as explicit per-tick inputs.
* Side effects (sound playback, writing the high-score file) are modelled as
  emitted `Event` values.
* Rendering and pygame plumbing are out of scope, as in the specification.
-/

inductive Colour
  | RED
  | GREEN
  | BLUE
deriving DecidableEq, Repr

inductive ShapeKind
  | circle
  | square
  | triangle
deriving DecidableEq, Repr

/-- Observable side effects of a simulation tick: the match / miss / game-over
sound notifications and a write of value `n` to the high-score store. -/
inductive Event
  | matchS
  | missS
  | gameOverS
  | save (n : Int)
deriving DecidableEq, Repr

/-- The values written to the high-score store among a list of events. -/
def saveVals (evs : List Event) : List Int :=
  evs.filterMap fun e =>
    match e with
    | .save n => some n
    | _ => none

/-- Python `int(s)` applied to the digits after an optional sign:
`none` when some character is not a decimal digit or the digit list is empty. -/
def pyDigits : List Char → Option Nat
  | [] => none
  | cs =>
    if cs.all Char.isDigit then
      some (cs.foldl (fun a c => a * 10 + (c.toNat - 48)) 0)
    else
      none

/-- Python `int(s)` on a string: strip surrounding whitespace, then an optional
sign followed by at least one decimal digit; `none` models `ValueError`. -/
def pyInt (s : String) : Option Int :=
  match s.trim.toList with
  | '+' :: cs => (pyDigits cs).map Int.ofNat
  | '-' :: cs => (pyDigits cs).map fun n => -(n : Int)
  | cs => (pyDigits cs).map Int.ofNat

namespace Chatgpt

/-! ## Embedding of `chatgpt.py` -/

def WIDTH : Int := 600
def HEIGHT : Int := 800
def SHAPE_FALL_SPEED : ℚ := 3
def SPEED_INCREMENT_INTERVAL : Int := 5
def SPEED_INCREMENT_AMOUNT : ℚ := 1/2
def NUM_LIVES : Int := 3
def ZONE_WIDTH : Int := 100
def BOTTOM_MARGIN : Int := 50
def SHAPE_SPAWN_INTERVAL : Int := 1000
def COLOUR_LIST : List Colour := [.RED, .GREEN, .BLUE]

/-- `load_high_score` of `chatgpt.py`: the file content is `none` when the file
does not exist.  Both a missing file and unparsable content give `0`. -/
def load_high_score (file : Option String) : Int :=
  match file with
  | none => 0
  | some content =>
    match pyInt content.trim with
    | some n => n
    | none => 0

/-- The `CollectorZones` class: `index` picks which colour sits in the
left-most slot, the centre slot is the active matching zone. -/
structure CollectorZones where
  index : Int
  x : Int
  y : Int
  colours : List Colour
deriving DecidableEq, Repr

def CollectorZones.init : CollectorZones :=
  { index := 0
    x := WIDTH / 2 - ZONE_WIDTH
    y := HEIGHT - BOTTOM_MARGIN
    colours := COLOUR_LIST }

def CollectorZones.move_left (c : CollectorZones) : CollectorZones :=
  { c with index := (c.index - 1) % 3 }

def CollectorZones.move_right (c : CollectorZones) : CollectorZones :=
  { c with index := (c.index + 1) % 3 }

def CollectorZones.get_centre_colour (c : CollectorZones) : Colour :=
  c.colours.getD ((c.index + 1) % 3).toNat Colour.RED

structure FallingShape where
  colour : Colour
  shape_type : ShapeKind
  x : Int
  y : ℚ
  speed : ℚ
  size : ℚ
deriving DecidableEq, Repr

/-- `FallingShape.__init__`: colour, kind and x are random (inputs here),
y starts at `-50` above the screen, the speed is the fall speed passed in. -/
def FallingShape.spawn (colour : Colour) (kind : ShapeKind) (x : Int)
    (fall_speed : ℚ) : FallingShape :=
  { colour := colour, shape_type := kind, x := x, y := -50
    speed := fall_speed, size := 30 }

def FallingShape.update (s : FallingShape) : FallingShape :=
  { s with y := s.y + s.speed }

def FallingShape.is_off_screen (s : FallingShape) : Bool :=
  decide (s.y - s.size > (HEIGHT : ℚ))

/-- The zone-row contact test of the main loop:
`shape.y + shape.size >= collector.y`. -/
def zoneHitB (zy : Int) (s : FallingShape) : Bool :=
  decide (s.y + s.size ≥ (zy : ℚ))

structure ResolveResult where
  score : Int
  lives : Int
  speed : ℚ
  shapes : List FallingShape
  events : List Event
deriving DecidableEq, Repr

/-- The per-shape resolution loop of `main` (lines 286–321): shapes at the zone
row are matched against the centre colour, shapes off screen count as misses,
all resolved shapes are collected for removal.  The source collects them in
`to_remove` and erases them afterwards; since the resolution condition depends
only on the shape's fields, that two-phase removal keeps exactly the shapes of
the final `else` branch, returned here as `shapes`. -/
def processShapes (centre : Colour) (zy : Int) :
    List FallingShape → Int → Int → ℚ → ResolveResult
  | [], score, lives, speed =>
    { score := score, lives := lives, speed := speed, shapes := [], events := [] }
  | s :: rest, score, lives, speed =>
    if zoneHitB zy s then
      if s.colour = centre then
        let score' := score + 1
        let speed' :=
          if score' % SPEED_INCREMENT_INTERVAL = 0 then
            speed + SPEED_INCREMENT_AMOUNT
          else speed
        let r := processShapes centre zy rest score' lives speed'
        { r with events := .matchS :: r.events }
      else
        let r := processShapes centre zy rest score (lives - 1) speed
        { r with events := .missS :: r.events }
    else if s.is_off_screen then
      let r := processShapes centre zy rest score (lives - 1) speed
      { r with events := .missS :: r.events }
    else
      let r := processShapes centre zy rest score lives speed
      { r with shapes := s :: r.shapes }

/-- Shape resolved as a successful match this tick: at the zone row with the
centre colour. -/
def matchedB (centre : Colour) (zy : Int) (s : FallingShape) : Bool :=
  zoneHitB zy s && decide (s.colour = centre)

/-- Shape resolved as a mismatch at the zone row. -/
def zoneMissB (centre : Colour) (zy : Int) (s : FallingShape) : Bool :=
  zoneHitB zy s && !decide (s.colour = centre)

/-- Shape resolved as an off-screen miss (only tested below the zone row). -/
def offMissB (zy : Int) (s : FallingShape) : Bool :=
  !zoneHitB zy s && s.is_off_screen

/-- Shape kept alive: neither at the zone row nor off screen. -/
def keptB (zy : Int) (s : FallingShape) : Bool :=
  !zoneHitB zy s && !s.is_off_screen

/-- The notification a single shape produces this tick, if any. -/
def eventOf (centre : Colour) (zy : Int) (s : FallingShape) : Option Event :=
  if zoneHitB zy s then
    if s.colour = centre then some .matchS else some .missS
  else if s.is_off_screen then some .missS
  else none

inductive GStateTag
  | title
  | playing
  | gameover
deriving DecidableEq, Repr

structure GameState where
  game_state : GStateTag
  high_score : Int
  collector : CollectorZones
  shapes : List FallingShape
  score : Int
  lives : Int
  current_fall_speed : ℚ
  last_spawn_time : Int
deriving DecidableEq, Repr

inductive Key
  | leftK
  | rightK
  | spaceK
  | otherK
deriving DecidableEq, Repr

/-- Per-tick external inputs: key events, the tick count in milliseconds
(`pygame.time.get_ticks()`), and the random draws used if a spawn occurs. -/
structure TickInput where
  keys : List Key
  now : Int
  spawnColour : Colour
  spawnKind : ShapeKind
  spawnX : Int
deriving DecidableEq, Repr

/-- The KEYDOWN handling of `main`: any key starts from the title (with a full
reset), left/right rotate during play, space returns from game over. -/
def handleKey (now : Int) (st : GameState) (k : Key) : GameState :=
  match st.game_state with
  | .title =>
    { st with
      game_state := .playing
      score := 0
      lives := NUM_LIVES
      shapes := []
      collector := CollectorZones.init
      current_fall_speed := SHAPE_FALL_SPEED
      last_spawn_time := now }
  | .playing =>
    if k = .leftK then { st with collector := st.collector.move_left }
    else if k = .rightK then { st with collector := st.collector.move_right }
    else st
  | .gameover =>
    if k = .spaceK then { st with game_state := .title } else st

/-- The spawn block of the Playing update: when more than
`SHAPE_SPAWN_INTERVAL` ms have elapsed, append one freshly spawned shape and
reset the spawn timestamp. -/
def spawnStep (inp : TickInput) (st : GameState) : List FallingShape × Int :=
  if inp.now - st.last_spawn_time > SHAPE_SPAWN_INTERVAL then
    (st.shapes ++
      [FallingShape.spawn inp.spawnColour inp.spawnKind inp.spawnX
        st.current_fall_speed],
     inp.now)
  else (st.shapes, st.last_spawn_time)

/-- The movement block: every live shape (including one spawned this tick)
advances by its own speed. -/
def movedShapes (inp : TickInput) (st : GameState) : List FallingShape :=
  (spawnStep inp st).1.map FallingShape.update

/-- The resolution block applied to this tick's moved shapes. -/
def resolveStep (inp : TickInput) (st : GameState) : ResolveResult :=
  processShapes st.collector.get_centre_colour st.collector.y
    (movedShapes inp st) st.score st.lives st.current_fall_speed

/-- The Playing-state update of `main`: spawn on the timer, advance all shapes,
resolve, then test `lives <= 0` for the game-over transition (which persists
the high score only when exceeded). -/
def playingUpdate (inp : TickInput) (st : GameState) : GameState × List Event :=
  let spawned := spawnStep inp st
  let r := resolveStep inp st
  if r.lives ≤ 0 then
    let hs :=
      if r.score > st.high_score then (r.score, [Event.save r.score])
      else (st.high_score, [])
    ({ st with
        game_state := .gameover
        shapes := r.shapes
        score := r.score
        lives := r.lives
        current_fall_speed := r.speed
        last_spawn_time := spawned.2
        high_score := hs.1 },
     r.events ++ hs.2 ++ [Event.gameOverS])
  else
    ({ st with
        shapes := r.shapes
        score := r.score
        lives := r.lives
        current_fall_speed := r.speed
        last_spawn_time := spawned.2 },
     r.events)

/-- One iteration of the main loop: event handling first, then the update
logic of the current state (only Playing mutates the simulation). -/
def tick (inp : TickInput) (st : GameState) : GameState × List Event :=
  let st' := inp.keys.foldl (handleKey inp.now) st
  match st'.game_state with
  | .playing => playingUpdate inp st'
  | _ => (st', [])

/-- The state of `main` right after initialisation (high score loaded,
title screen showing). -/
def initState (hs : Int) : GameState :=
  { game_state := .title
    high_score := hs
    collector := CollectorZones.init
    shapes := []
    score := 0
    lives := NUM_LIVES
    current_fall_speed := SHAPE_FALL_SPEED
    last_spawn_time := 0 }

/-- Run the main loop over a list of tick inputs, keeping only the state. -/
def run (inps : List TickInput) (st : GameState) : GameState :=
  inps.foldl (fun s i => (tick i s).1) st

end Chatgpt

namespace Gemini

/-! ## Embedding of `gemini.py` -/

def screen_width : Int := 600
def screen_height : Int := 800
def zone_width : Int := screen_width / 3
def zone_height : Int := 50
def shape_size : Int := 40
def speed_increase_interval : Int := 20

/-- `load_high_score` of `gemini.py`: only `FileNotFoundError` is caught, so a
missing file yields `0` but unparsable content raises `ValueError`,
modelled as `Except.error`. -/
def load_high_score (file : Option String) : Except Unit Int :=
  match file with
  | none => .ok 0
  | some content =>
    match pyInt content with
    | some n => .ok n
    | none => .error ()

/-- `pygame.Rect`: integer position and extent. -/
structure Rect where
  x : Int
  y : Int
  w : Int
  h : Int
deriving DecidableEq, Repr

/-- `Rect.colliderect`: strict overlap of the two rectangles (rectangles that
merely share an edge do not collide). -/
def Rect.colliderect (a b : Rect) : Bool :=
  decide (a.x < b.x + b.w) && decide (a.x + a.w > b.x) &&
  decide (a.y < b.y + b.h) && decide (a.y + a.h > b.y)

structure Zone where
  color : Colour
  rect : Rect
deriving DecidableEq, Repr

/-- The three collector zones after the per-tick reposition
`zone["rect"].x = (zone_position - 1 + i) * zone_width`. -/
def zones (zone_position : Int) : List Zone :=
  [ { color := .RED
      rect := { x := (zone_position - 1) * zone_width
                y := screen_height - zone_height, w := zone_width, h := zone_height } }
  , { color := .GREEN
      rect := { x := (zone_position - 1 + 1) * zone_width
                y := screen_height - zone_height, w := zone_width, h := zone_height } }
  , { color := .BLUE
      rect := { x := (zone_position - 1 + 2) * zone_width
                y := screen_height - zone_height, w := zone_width, h := zone_height } } ]

structure GShape where
  shape_type : ShapeKind
  color : Colour
  rect : Rect
deriving DecidableEq, Repr

/-- The KEYDOWN handling of `game_loop`: zone movement is clamped to
`[0, len(zones) - 1]`, not cyclic. -/
def gemHandleKey (zp : Int) (k : Chatgpt.Key) : Int :=
  if k = .leftK then max 0 (zp - 1)
  else if k = .rightK then min 2 (zp + 1)
  else zp

/-- The first zone whose rectangle overlaps the shape's rectangle, in list
order — the `for zone in zones` loop stops (`break`) at the first hit. -/
def gemHitZone (zs : List Zone) (s : GShape) : Option Zone :=
  zs.find? fun z => s.rect.colliderect z.rect

structure GResolveResult where
  score : Int
  high_score : Int
  lives : Int
  speed : Int
  delay : ℚ
  game_over : Bool
  shapes : List GShape
  events : List Event
deriving DecidableEq, Repr

/-- The collision/scoring loop of `game_loop` (lines 222–253): a shape below
the screen is a miss; otherwise the first zone its rectangle overlaps decides
match or mismatch and the shape is removed; a shape overlapping no zone is
kept.  The source iterates over a snapshot (`shapes[:]`) removing resolved
shapes from the live list, which keeps exactly the shapes of the `none`
branch; the cosmetic `shape["rect"].y = screen_height` before removal has no
observable effect and is dropped. -/
def gemProcess (zs : List Zone) :
    List GShape → Int → Int → Int → Int → ℚ → Bool → GResolveResult
  | [], score, high, lives, speed, delay, go =>
    { score := score, high_score := high, lives := lives, speed := speed
      delay := delay, game_over := go, shapes := [], events := [] }
  | s :: rest, score, high, lives, speed, delay, go =>
    if s.rect.y > screen_height then
      let lives' := lives - 1
      let go' := go || decide (lives' = 0)
      let evs := if lives' = 0 then [Event.missS, Event.gameOverS] else [Event.missS]
      let r := gemProcess zs rest score high lives' speed delay go'
      { r with events := evs ++ r.events }
    else
      match gemHitZone zs s with
      | some z =>
        if s.color = z.color then
          let score' := score + 1
          let high' := if score' > high then score' else high
          let sd :=
            if score' % speed_increase_interval = 0 then
              (speed + 1, max (1/2 : ℚ) (delay - 1/10))
            else (speed, delay)
          let r := gemProcess zs rest score' high' lives sd.1 sd.2 go
          { r with events := .matchS :: r.events }
        else
          let lives' := lives - 1
          let go' := go || decide (lives' = 0)
          let evs := if lives' = 0 then [Event.missS, Event.gameOverS] else [Event.missS]
          let r := gemProcess zs rest score high lives' speed delay go'
          { r with events := evs ++ r.events }
      | none =>
        let r := gemProcess zs rest score high lives speed delay go
        { r with shapes := s :: r.shapes }

/-- Shape below the screen this tick (`shape["rect"].y > screen_height`). -/
def gOffB (s : GShape) : Bool :=
  decide (s.rect.y > screen_height)

/-- Shape resolved as a successful match: on screen and the first zone its
rectangle overlaps has its colour. -/
def gMatchB (zs : List Zone) (s : GShape) : Bool :=
  !gOffB s &&
    (match gemHitZone zs s with
     | some z => decide (s.color = z.color)
     | none => false)

/-- Shape resolved as a mismatch: on screen and the first zone its rectangle
overlaps has a different colour. -/
def gMissZoneB (zs : List Zone) (s : GShape) : Bool :=
  !gOffB s &&
    (match gemHitZone zs s with
     | some z => !decide (s.color = z.color)
     | none => false)

/-- Shape kept alive: on screen and overlapping no zone. -/
def gKeptB (zs : List Zone) (s : GShape) : Bool :=
  !gOffB s && (gemHitZone zs s).isNone

structure GState where
  score : Int
  high_score : Int
  lives : Int
  shape_speed : Int
  zone_position : Int
  shapes : List GShape
  last_shape_time : ℚ
  shape_spawn_delay : ℚ
  game_over : Bool
deriving DecidableEq, Repr

/-- Per-tick external inputs for `game_loop`: key events, `time.time()` in
seconds, and the random draws used if a spawn occurs. -/
structure GTickInput where
  keys : List Chatgpt.Key
  now : ℚ
  spawnKind : ShapeKind
  spawnColor : Colour
  spawnX : Int
deriving DecidableEq, Repr

/-- The state of `game_loop` right after its variable setup. -/
def gemInit (hs : Int) : GState :=
  { score := 0
    high_score := hs
    lives := 3
    shape_speed := 5
    zone_position := 1
    shapes := []
    last_shape_time := 0
    shape_spawn_delay := 3/2
    game_over := false }

/-- The spawn block of the gemini loop: when more than `shape_spawn_delay`
seconds have elapsed, append one freshly spawned shape and reset the spawn
timestamp. -/
def gemSpawnStep (inp : GTickInput) (st : GState) : List GShape × ℚ :=
  if inp.now - st.last_shape_time > st.shape_spawn_delay then
    (st.shapes ++
      [{ shape_type := inp.spawnKind, color := inp.spawnColor
         rect := { x := inp.spawnX, y := 0 - shape_size
                   w := shape_size, h := shape_size } }],
     inp.now)
  else (st.shapes, st.last_shape_time)

/-- The movement block: every live shape advances by the *shared* session
speed `shape_speed` (gemini shapes carry no speed of their own). -/
def gemMovedShapes (inp : GTickInput) (st : GState) : List GShape :=
  (gemSpawnStep inp st).1.map fun s =>
    { s with rect := { s.rect with y := s.rect.y + st.shape_speed } }

/-- The collision/scoring block applied to this tick's moved shapes, against
the zones at this tick's (already key-adjusted) position. -/
def gemResolveStep (inp : GTickInput) (st : GState) : GResolveResult :=
  gemProcess (zones (inp.keys.foldl gemHandleKey st.zone_position))
    (gemMovedShapes inp st) st.score st.high_score st.lives
    st.shape_speed st.shape_spawn_delay st.game_over

/-- One iteration of the `while not game_over` loop: events, zone reposition,
spawn, move every live shape down by the shared `shape_speed`, then the
collision/scoring pass.  Once `game_over` holds the loop body no longer
runs. -/
def gemTick (inp : GTickInput) (st : GState) : GState × List Event :=
  if st.game_over then (st, [])
  else
    let zp := inp.keys.foldl gemHandleKey st.zone_position
    let spawned := gemSpawnStep inp st
    let r := gemResolveStep inp st
    ({ score := r.score
       high_score := r.high_score
       lives := r.lives
       shape_speed := r.speed
       zone_position := zp
       shapes := r.shapes
       last_shape_time := spawned.2
       shape_spawn_delay := r.delay
       game_over := r.game_over },
     r.events)

/-- Run the game loop over a list of tick inputs, state only. -/
def gemRun (inps : List GTickInput) (st : GState) : GState :=
  inps.foldl (fun s i => (gemTick i s).1) st

/-- Run the game loop collecting all emitted events. -/
def gemRunE (inps : List GTickInput) (st : GState) : GState × List Event :=
  match inps with
  | [] => (st, [])
  | i :: rest =>
    let r := gemTick i st
    let r' := gemRunE rest r.1
    (r'.1, r.2 ++ r'.2)

/-- A whole session of `game_loop` starting from a loaded high score `hs`:
when the loop has exited (`game_over`), `save_high_score(high_score)` runs
unconditionally (line 270). -/
def gemSession (hs : Int) (inps : List GTickInput) : GState × List Event :=
  let r := gemRunE inps (gemInit hs)
  if r.1.game_over then (r.1, r.2 ++ [Event.save r.1.high_score]) else r

end Gemini

/-! ## Concrete executions used below

Each of the following input sequences drives one of the two embedded games
from its initial state.  Spawn timing is controlled through the clock input:
a tick whose clock jumps past the spawn interval spawns exactly one shape. -/

/-- The ticks of `chatgptLivesInput` on which a shape is spawned. -/
def chatgptLivesSpawns : List Nat := [1, 2, 3, 4, 5, 6, 7, 230, 267]

/-- A run of `chatgpt.py`: one key press starts the game; five green shapes
(spawned on ticks 1–5) match the green centre and raise the fall speed to
`3.5` at score 5; two red shapes (ticks 6, 7) mismatch, leaving one life; a
red shape of speed `3` (tick 230) and a faster red shape of speed `3.5`
(tick 267) then cross the zone row on the same tick. -/
def chatgptLivesInput (i : Nat) : Chatgpt.TickInput :=
  { keys := if i = 0 then [.spaceK] else []
    now := (i : Int) + 1001 * (chatgptLivesSpawns.countP fun s => decide (s ≤ i))
    spawnColour := if 1 ≤ i ∧ i ≤ 5 then .GREEN else .RED
    spawnKind := .circle
    spawnX := 300 }

def chatgptLivesRun : Chatgpt.GameState :=
  Chatgpt.run ((List.range 487).map chatgptLivesInput) (Chatgpt.initState 0)

/-- A run of `gemini.py` with a stored high score of `5`: three red shapes
(spawned on ticks 0–2, x = 250) hit the green centre zone and mismatch,
exhausting the three lives without scoring. -/
def geminiLowScoreInput (i : Nat) : Gemini.GTickInput :=
  { keys := []
    now := if i < 3 then 2 * (i + 1) else 7
    spawnKind := .square
    spawnColor := .RED
    spawnX := 250 }

def geminiLowScoreSession : Gemini.GState × List Event :=
  Gemini.gemSession 5 ((List.range 153).map geminiLowScoreInput)

/-- A run of `gemini.py`: twenty green shapes (ticks 1–20, x = 250) match the
centre zone, reaching score 20 on tick 170 and raising `shape_speed` to 6; a
red shape spawned on tick 120 is still in flight at that moment. -/
def geminiSpeedInput (i : Nat) : Gemini.GTickInput :=
  { keys := []
    now :=
      if i = 0 then 1
      else if i ≤ 20 then 2 * i
      else if i ≤ 119 then 41
      else if i = 120 then 43
      else 44
    spawnKind := .square
    spawnColor := if i = 120 then .RED else .GREEN
    spawnX := 250 }

/-- The `geminiSpeedInput` run up to and including tick `n - 1`. -/
def geminiSpeedRun (n : Nat) : Gemini.GState :=
  Gemini.gemRun ((List.range n).map geminiSpeedInput) (Gemini.gemInit 0)

/-- A run of `gemini.py`: a left key on tick 0 moves the zones to offset 0,
uncovering the right third of the playfield; a red shape spawned on tick 1 at
x = 500 then falls through the zone row without overlapping any zone. -/
def geminiGapInput (i : Nat) : Gemini.GTickInput :=
  { keys := if i = 0 then [.leftK] else []
    now := if i = 0 then 1 else if i = 1 then 3 else 4
    spawnKind := .circle
    spawnColor := .RED
    spawnX := 500 }

def geminiGapRun : Gemini.GState :=
  Gemini.gemRun ((List.range 152).map geminiGapInput) (Gemini.gemInit 0)

/-- A run of `gemini.py`: a red shape spawned on tick 0 at x = 50 falls onto
the left (red) zone while the zones sit at their default offset 1, and
matches there even though the centre zone is green. -/
def geminiSideMatchInput (i : Nat) : Gemini.GTickInput :=
  { keys := []
    now := if i = 0 then 2 else 3
    spawnKind := .circle
    spawnColor := .RED
    spawnX := 50 }

def geminiSideMatchRun : Gemini.GState :=
  Gemini.gemRun ((List.range 151).map geminiSideMatchInput) (Gemini.gemInit 0)

/-- Three gemini ticks touching only the zones: left (offset 1 → 0), then
left again (clamped at 0), then right (0 → 1). -/
def geminiClampInput (ks : List Chatgpt.Key) : Gemini.GTickInput :=
  { keys := ks, now := 1, spawnKind := .circle, spawnColor := .RED, spawnX := 0 }

def geminiClampRun (kss : List (List Chatgpt.Key)) : Gemini.GState :=
  Gemini.gemRun (kss.map geminiClampInput) (Gemini.gemInit 0)

/-! ## Properties of the chatgpt resolution loop -/

namespace Chatgpt

/-- Characterization of one resolution pass: the score rises by the number of
matched shapes, the lives fall by the number of zone mismatches plus the
number of off-screen misses, exactly the unresolved shapes survive, and each
shape contributes at most one notification, as described by `eventOf`. -/
theorem processShapes_spec (centre : Colour) (zy : Int) (shapes : List FallingShape) :
    ∀ (sc lv : Int) (sp : ℚ),
      (processShapes centre zy shapes sc lv sp).score =
        sc + shapes.countP (matchedB centre zy) ∧
      (processShapes centre zy shapes sc lv sp).lives =
        lv - shapes.countP (zoneMissB centre zy) - shapes.countP (offMissB zy) ∧
      (processShapes centre zy shapes sc lv sp).shapes = shapes.filter (keptB zy) ∧
      (processShapes centre zy shapes sc lv sp).events =
        shapes.filterMap (eventOf centre zy) := by
  induction shapes with
  | nil => intro sc lv sp; simp [processShapes]
  | cons s rest ih =>
    intro sc lv sp
    by_cases hz : zoneHitB zy s
    · by_cases hc : s.colour = centre
      · simp only [processShapes, hz, hc, if_true]
        generalize (if (sc + 1) % SPEED_INCREMENT_INTERVAL = 0 then
          sp + SPEED_INCREMENT_AMOUNT else sp) = sp'
        have h := ih (sc + 1) lv sp'
        simp [hz, hc, matchedB, zoneMissB, offMissB, keptB, eventOf,
          h.1, h.2.1, h.2.2.1, h.2.2.2]
        omega
      · have h := ih sc (lv - 1) sp
        simp [processShapes, hz, hc, matchedB, zoneMissB, offMissB, keptB, eventOf,
          h.1, h.2.1, h.2.2.1, h.2.2.2]
        omega
    · by_cases ho : s.is_off_screen
      · have h := ih sc (lv - 1) sp
        simp [processShapes, hz, ho, matchedB, zoneMissB, offMissB, keptB, eventOf,
          h.1, h.2.1, h.2.2.1, h.2.2.2]
        omega
      · have h := ih sc lv sp
        simp [processShapes, hz, ho, matchedB, zoneMissB, offMissB, keptB, eventOf,
          h.1, h.2.1, h.2.2.1, h.2.2.2]

/-- `eventOf` never produces a store write. -/
theorem saveVals_filterMap_eventOf (centre : Colour) (zy : Int)
    (shapes : List FallingShape) :
    saveVals (shapes.filterMap (eventOf centre zy)) = [] := by
  induction shapes with
  | nil => simp [saveVals]
  | cons s rest ih =>
    by_cases hz : zoneHitB zy s
    · by_cases hc : s.colour = centre <;>
        simpa [eventOf, hz, hc, saveVals] using ih
    · by_cases ho : s.is_off_screen <;>
        simpa [eventOf, hz, ho, saveVals] using ih

/-- Exactly the matched shapes produce a match notification. -/
theorem matchEvents_filterMap_eventOf (centre : Colour) (zy : Int)
    (shapes : List FallingShape) :
    ((shapes.filterMap (eventOf centre zy)).countP
      fun e => decide (e = Event.matchS)) = shapes.countP (matchedB centre zy) := by
  induction shapes with
  | nil => simp
  | cons s rest ih =>
    by_cases hz : zoneHitB zy s
    · by_cases hc : s.colour = centre <;>
        simp [eventOf, hz, hc, matchedB, ih]
    · by_cases ho : s.is_off_screen <;>
        simp [eventOf, hz, ho, matchedB, ih]

/-- Every shape of a resolution pass falls in exactly one of the four
classes: matched, mismatched at the zone row, missed off screen, kept. -/
theorem countP_partition (centre : Colour) (zy : Int) (shapes : List FallingShape) :
    shapes.countP (matchedB centre zy) + shapes.countP (zoneMissB centre zy) +
      shapes.countP (offMissB zy) + shapes.countP (keptB zy) = shapes.length := by
  induction shapes with
  | nil => simp
  | cons s rest ih =>
    by_cases hz : zoneHitB zy s
    · by_cases hc : s.colour = centre <;>
        simp [List.countP_cons, matchedB, zoneMissB, offMissB, keptB, hz, hc] <;>
        omega
    · by_cases ho : s.is_off_screen <;>
        simp [List.countP_cons, matchedB, zoneMissB, offMissB, keptB, hz, ho] <;>
        omega

end Chatgpt

namespace Chatgpt

theorem playingUpdate_score (inp : TickInput) (st : GameState) :
    (playingUpdate inp st).1.score = (resolveStep inp st).score := by
  unfold playingUpdate
  dsimp only
  split <;> rfl

theorem playingUpdate_lives (inp : TickInput) (st : GameState) :
    (playingUpdate inp st).1.lives = (resolveStep inp st).lives := by
  unfold playingUpdate
  dsimp only
  split <;> rfl

theorem playingUpdate_shapes (inp : TickInput) (st : GameState) :
    (playingUpdate inp st).1.shapes = (resolveStep inp st).shapes := by
  unfold playingUpdate
  dsimp only
  split <;> rfl

theorem playingUpdate_game_state (inp : TickInput) (st : GameState) :
    (playingUpdate inp st).1.game_state =
      if (resolveStep inp st).lives ≤ 0 then GStateTag.gameover
      else st.game_state := by
  unfold playingUpdate
  dsimp only
  split <;> simp_all

theorem playingUpdate_high_score (inp : TickInput) (st : GameState) :
    (playingUpdate inp st).1.high_score =
      if (resolveStep inp st).lives ≤ 0 then
        (if (resolveStep inp st).score > st.high_score then (resolveStep inp st).score
         else st.high_score)
      else st.high_score := by
  unfold playingUpdate
  dsimp only
  split
  · split <;> rfl
  · simp_all

theorem playingUpdate_events (inp : TickInput) (st : GameState) :
    (playingUpdate inp st).2 =
      if (resolveStep inp st).lives ≤ 0 then
        (resolveStep inp st).events ++
          (if (resolveStep inp st).score > st.high_score then
            [Event.save (resolveStep inp st).score] else []) ++ [Event.gameOverS]
      else (resolveStep inp st).events := by
  unfold playingUpdate
  dsimp only
  split
  · split <;> simp_all
  · simp_all

/-- Key handling while Playing never leaves the Playing state and only
replaces the collector. -/
theorem foldl_handleKey_playing (now : Int) (keys : List Key) :
    ∀ st : GameState, st.game_state = .playing →
      ∃ c, keys.foldl (handleKey now) st = { st with collector := c } := by
  induction keys with
  | nil => intro st _; exact ⟨st.collector, rfl⟩
  | cons k ks ih =>
    intro st h
    have step : ∃ c, handleKey now st k = { st with collector := c } := by
      obtain ⟨gs, hsv, cl, shp, sc, lv, sp, ls⟩ := st
      cases h
      by_cases h1 : k = Key.leftK
      · exact ⟨cl.move_left, by simp [handleKey, h1]⟩
      · by_cases h2 : k = Key.rightK
        · exact ⟨cl.move_right, by simp [handleKey, h1, h2]⟩
        · exact ⟨cl, by simp [handleKey, h1, h2]⟩
    obtain ⟨c, hc⟩ := step
    obtain ⟨c', hc'⟩ := ih { st with collector := c } h
    exact ⟨c', by rw [List.foldl_cons, hc, hc']⟩

/-- A tick on a Playing state runs the Playing update on the state with the
(possibly rotated) collector. -/
theorem tick_playing (inp : TickInput) (st : GameState)
    (h : st.game_state = .playing) :
    ∃ c, tick inp st = playingUpdate inp { st with collector := c } := by
  obtain ⟨c, hc⟩ := foldl_handleKey_playing inp.now inp.keys st h
  exact ⟨c, by simp [tick, hc, h]⟩

/-- One key event never raises `lives` above `NUM_LIVES`. -/
theorem handleKey_lives_le (now : Int) (st : GameState) (k : Key)
    (h : st.lives ≤ NUM_LIVES) : (handleKey now st k).lives ≤ NUM_LIVES := by
  unfold handleKey
  cases hs : st.game_state <;> simp [h]
  · cases k <;> simp [h]
  · cases k <;> simp [h]

theorem foldl_handleKey_lives_le (now : Int) (keys : List Key) :
    ∀ st : GameState, st.lives ≤ NUM_LIVES →
      (keys.foldl (handleKey now) st).lives ≤ NUM_LIVES := by
  induction keys with
  | nil => intro st h; exact h
  | cons k ks ih =>
    intro st h
    exact ih _ (handleKey_lives_le now st k h)

/-- A resolution pass never raises `lives`. -/
theorem resolveStep_lives_le (inp : TickInput) (st : GameState) :
    (resolveStep inp st).lives ≤ st.lives := by
  have h := (processShapes_spec st.collector.get_centre_colour st.collector.y
    (movedShapes inp st) st.score st.lives st.current_fall_speed).2.1
  unfold resolveStep
  omega

/-- A whole tick never raises `lives` above `NUM_LIVES`. -/
theorem tick_lives_le (inp : TickInput) (st : GameState)
    (h : st.lives ≤ NUM_LIVES) : (tick inp st).1.lives ≤ NUM_LIVES := by
  unfold tick
  dsimp only
  have h1 := foldl_handleKey_lives_le inp.now inp.keys st h
  split
  · have h2 := playingUpdate_lives inp (inp.keys.foldl (handleKey inp.now) st)
    have h3 := resolveStep_lives_le inp (inp.keys.foldl (handleKey inp.now) st)
    omega
  · exact h1

/-- In every reachable state of `main`, `lives` is at most `NUM_LIVES`. -/
theorem run_lives_le (inps : List TickInput) (hs : Int) :
    (run inps (initState hs)).lives ≤ NUM_LIVES := by
  suffices h : ∀ st : GameState, st.lives ≤ NUM_LIVES →
      (run inps st).lives ≤ NUM_LIVES by
    exact h (initState hs) (by simp [initState])
  induction inps with
  | nil => intro st h; exact h
  | cons i rest ih =>
    intro st h
    exact ih _ (tick_lives_le i st h)

end Chatgpt

/-! ## Properties of the gemini collision/scoring loop -/

namespace Gemini

/-- The score rises by exactly the number of shapes whose first overlapping
zone has their colour. -/
theorem gemProcess_score (zs : List Zone) (shapes : List GShape) :
    ∀ (sc hi lv sp : Int) (dl : ℚ) (go : Bool),
      (gemProcess zs shapes sc hi lv sp dl go).score = sc + shapes.countP (gMatchB zs) := by
  induction shapes with
  | nil => intro sc hi lv sp dl go; simp [gemProcess]
  | cons s rest ih =>
    intro sc hi lv sp dl go
    by_cases ho : s.rect.y > screen_height
    · simp [gemProcess, ho, ih, gMatchB, gOffB]
    · cases hfind : gemHitZone zs s with
      | some z =>
        by_cases hc : s.color = z.color
        · simp [gemProcess, ho, hfind, hc, ih, gMatchB, gOffB]
          omega
        · simp [gemProcess, ho, hfind, hc, ih, gMatchB, gOffB]
      | none => simp [gemProcess, ho, hfind, ih, gMatchB, gOffB]

/-- The lives fall by exactly the number of off-screen shapes plus the number
of zone mismatches. -/
theorem gemProcess_lives (zs : List Zone) (shapes : List GShape) :
    ∀ (sc hi lv sp : Int) (dl : ℚ) (go : Bool),
      (gemProcess zs shapes sc hi lv sp dl go).lives =
        lv - shapes.countP gOffB - shapes.countP (gMissZoneB zs) := by
  induction shapes with
  | nil => intro sc hi lv sp dl go; simp [gemProcess]
  | cons s rest ih =>
    intro sc hi lv sp dl go
    by_cases ho : s.rect.y > screen_height
    · simp [gemProcess, ho, ih, gMissZoneB, gOffB]
      omega
    · cases hfind : gemHitZone zs s with
      | some z =>
        by_cases hc : s.color = z.color
        · simp [gemProcess, ho, hfind, hc, ih, gMissZoneB, gOffB]
        · simp [gemProcess, ho, hfind, hc, ih, gMissZoneB, gOffB]
          omega
      | none => simp [gemProcess, ho, hfind, ih, gMissZoneB, gOffB]

/-- Exactly the on-screen shapes overlapping no zone survive the pass. -/
theorem gemProcess_shapes (zs : List Zone) (shapes : List GShape) :
    ∀ (sc hi lv sp : Int) (dl : ℚ) (go : Bool),
      (gemProcess zs shapes sc hi lv sp dl go).shapes = shapes.filter (gKeptB zs) := by
  induction shapes with
  | nil => intro sc hi lv sp dl go; simp [gemProcess]
  | cons s rest ih =>
    intro sc hi lv sp dl go
    by_cases ho : s.rect.y > screen_height
    · simp [gemProcess, ho, ih, gKeptB, gOffB]
    · cases hfind : gemHitZone zs s with
      | some z =>
        by_cases hc : s.color = z.color
        · simp [gemProcess, ho, hfind, hc, ih, gKeptB, gOffB]
        · simp [gemProcess, ho, hfind, hc, ih, gKeptB, gOffB]
      | none => simp [gemProcess, ho, hfind, ih, gKeptB, gOffB]

/-- Exactly the matched shapes produce a match notification. -/
theorem gemProcess_matchEvents (zs : List Zone) (shapes : List GShape) :
    ∀ (sc hi lv sp : Int) (dl : ℚ) (go : Bool),
      ((gemProcess zs shapes sc hi lv sp dl go).events.countP
        fun e => decide (e = Event.matchS)) = shapes.countP (gMatchB zs) := by
  induction shapes with
  | nil => intro sc hi lv sp dl go; simp [gemProcess]
  | cons s rest ih =>
    intro sc hi lv sp dl go
    by_cases ho : s.rect.y > screen_height
    · by_cases hl : lv - 1 = 0 <;>
        simp [gemProcess, ho, hl, ih, gMatchB, gOffB]
    · cases hfind : gemHitZone zs s with
      | some z =>
        by_cases hc : s.color = z.color
        · simp [gemProcess, ho, hfind, hc, ih, gMatchB, gOffB]
        · by_cases hl : lv - 1 = 0 <;>
            simp [gemProcess, ho, hfind, hc, hl, ih, gMatchB, gOffB]
      | none => simp [gemProcess, ho, hfind, ih, gMatchB, gOffB]

/-- Exactly the off-screen shapes and the zone mismatches produce a miss
notification. -/
theorem gemProcess_missEvents (zs : List Zone) (shapes : List GShape) :
    ∀ (sc hi lv sp : Int) (dl : ℚ) (go : Bool),
      ((gemProcess zs shapes sc hi lv sp dl go).events.countP
        fun e => decide (e = Event.missS)) =
        shapes.countP gOffB + shapes.countP (gMissZoneB zs) := by
  induction shapes with
  | nil => intro sc hi lv sp dl go; simp [gemProcess]
  | cons s rest ih =>
    intro sc hi lv sp dl go
    by_cases ho : s.rect.y > screen_height
    · by_cases hl : lv - 1 = 0 <;>
        simp [gemProcess, ho, hl, ih, gMissZoneB, gOffB] <;> omega
    · cases hfind : gemHitZone zs s with
      | some z =>
        by_cases hc : s.color = z.color
        · simp [gemProcess, ho, hfind, hc, ih, gMissZoneB, gOffB]
        · by_cases hl : lv - 1 = 0 <;>
            simp [gemProcess, ho, hfind, hc, hl, ih, gMissZoneB, gOffB] <;> omega
      | none => simp [gemProcess, ho, hfind, ih, gMissZoneB, gOffB]

/-- The collision/scoring loop itself never writes the high-score store. -/
theorem gemProcess_noSave (zs : List Zone) (shapes : List GShape) :
    ∀ (sc hi lv sp : Int) (dl : ℚ) (go : Bool),
      saveVals (gemProcess zs shapes sc hi lv sp dl go).events = [] := by
  induction shapes with
  | nil => intro sc hi lv sp dl go; simp [gemProcess, saveVals]
  | cons s rest ih =>
    intro sc hi lv sp dl go
    have ih' : ∀ (sc hi lv sp : Int) (dl : ℚ) (go : Bool),
        (gemProcess zs rest sc hi lv sp dl go).events.filterMap
          (fun e => match e with | Event.save n => some n | _ => none) = [] := by
      intro sc hi lv sp dl go; exact ih sc hi lv sp dl go
    by_cases ho : s.rect.y > screen_height
    · by_cases hl : lv - 1 = 0 <;>
        simp [gemProcess, ho, hl, saveVals, ih']
    · cases hfind : gemHitZone zs s with
      | some z =>
        by_cases hc : s.color = z.color
        · simp [gemProcess, ho, hfind, hc, saveVals, ih']
        · by_cases hl : lv - 1 = 0 <;>
            simp [gemProcess, ho, hfind, hc, hl, saveVals, ih']
      | none => simp [gemProcess, ho, hfind, saveVals, ih']

/-- Every shape of a collision/scoring pass falls in exactly one of the four
classes: matched, mismatched, off screen, kept. -/
theorem gemCountP_partition (zs : List Zone) (shapes : List GShape) :
    shapes.countP (gMatchB zs) + shapes.countP (gMissZoneB zs) +
      shapes.countP gOffB + shapes.countP (gKeptB zs) = shapes.length := by
  induction shapes with
  | nil => simp
  | cons s rest ih =>
    by_cases ho : s.rect.y > screen_height
    · simp [List.countP_cons, gMatchB, gMissZoneB, gOffB, gKeptB, ho]
      omega
    · cases hfind : gemHitZone zs s with
      | some z =>
        by_cases hc : s.color = z.color <;>
          simp [List.countP_cons, gMatchB, gMissZoneB, gOffB, gKeptB, ho, hfind, hc] <;>
          omega
      | none =>
        simp [List.countP_cons, gMatchB, gMissZoneB, gOffB, gKeptB, ho, hfind]
        omega

theorem gemTick_not_over (inp : GTickInput) (st : GState) (h : st.game_over = false) :
    (gemTick inp st).1.score = (gemResolveStep inp st).score ∧
    (gemTick inp st).2 = (gemResolveStep inp st).events := by
  unfold gemTick
  simp [h]

/-- No iteration of the gemini loop writes the high-score store. -/
theorem gemRunE_noSave (inps : List GTickInput) :
    ∀ st : GState, saveVals (gemRunE inps st).2 = [] := by
  induction inps with
  | nil => intro st; simp [gemRunE, saveVals]
  | cons i rest ih =>
    intro st
    have htick : saveVals (gemTick i st).2 = [] := by
      unfold gemTick
      by_cases h : st.game_over
      · simp [h, saveVals]
      · simp [h, gemResolveStep, gemProcess_noSave]
    unfold gemRunE
    dsimp only
    rw [saveVals, List.filterMap_append]
    have h1 : (gemTick i st).2.filterMap
        (fun e => match e with | Event.save n => some n | _ => none) = [] := htick
    have h2 : (gemRunE rest (gemTick i st).1).2.filterMap
        (fun e => match e with | Event.save n => some n | _ => none) = [] := ih _
    rw [h1, h2]
    rfl


/-- The collision/scoring loop flags game over exactly when some unit
decrement of `lives` lands on 0: starting from a positive `lives`, that
happens iff the pass's miss count reaches it. -/
theorem gemProcess_gameOver (zs : List Zone) (shapes : List GShape) :
    ∀ (sc hi lv sp : Int) (dl : ℚ) (go : Bool),
      ((gemProcess zs shapes sc hi lv sp dl go).game_over = true ↔
        (go = true ∨ (0 < lv ∧
          lv ≤ (shapes.countP gOffB : Int) + (shapes.countP (gMissZoneB zs) : Int)))) := by
  induction shapes with
  | nil =>
    intro sc hi lv sp dl go
    cases go <;> simp [gemProcess] <;> omega
  | cons s rest ih =>
    intro sc hi lv sp dl go
    by_cases ho : s.rect.y > screen_height
    · cases go <;>
        simp [gemProcess, ho, ih, gMissZoneB, gOffB, List.countP_cons] <;>
        omega
    · cases hfind : gemHitZone zs s with
      | some z =>
        by_cases hc : s.color = z.color
        · cases go <;>
            simp [gemProcess, ho, hfind, hc, ih, gMissZoneB, gOffB, List.countP_cons]
          all_goals omega
        · cases go <;>
            simp [gemProcess, ho, hfind, hc, ih, gMissZoneB, gOffB, List.countP_cons] <;>
            omega
      | none =>
        cases go <;>
          simp [gemProcess, ho, hfind, ih, gMissZoneB, gOffB, List.countP_cons]
        all_goals omega

/-- While the loop is running, a tick's `lives` and `game_over` come from the
collision/scoring pass. -/
theorem gemTick_fields (inp : GTickInput) (st : GState) (h : st.game_over = false) :
    (gemTick inp st).1.lives = (gemResolveStep inp st).lives ∧
    (gemTick inp st).1.game_over = (gemResolveStep inp st).game_over := by
  unfold gemTick
  simp [h]

/-- The lives equation of one tick's collision/scoring pass. -/
theorem gemResolveStep_lives (inp : GTickInput) (st : GState) :
    (gemResolveStep inp st).lives =
      st.lives - ((gemMovedShapes inp st).countP gOffB : Int) -
        ((gemMovedShapes inp st).countP
          (gMissZoneB (zones (inp.keys.foldl gemHandleKey st.zone_position))) : Int) := by
  unfold gemResolveStep
  rw [gemProcess_lives]

/-- The game-over equation of one tick's collision/scoring pass. -/
theorem gemResolveStep_gameOver (inp : GTickInput) (st : GState) :
    ((gemResolveStep inp st).game_over = true ↔
      (st.game_over = true ∨ (0 < st.lives ∧
        st.lives ≤ ((gemMovedShapes inp st).countP gOffB : Int) +
          ((gemMovedShapes inp st).countP
            (gMissZoneB (zones (inp.keys.foldl gemHandleKey st.zone_position))) : Int)))) := by
  unfold gemResolveStep
  rw [gemProcess_gameOver]

/-- A gemini tick never increases `lives`. -/
theorem gemTick_lives_mono (inp : GTickInput) (st : GState) :
    (gemTick inp st).1.lives ≤ st.lives := by
  by_cases h : st.game_over
  · unfold gemTick
    simp [h]
  · have hf := gemTick_fields inp st (by simpa using h)
    rw [hf.1, gemResolveStep_lives]
    omega

/-- A gemini tick keeps `lives` positive as long as the session keeps
running. -/
theorem gemTick_pos (inp : GTickInput) (st : GState)
    (h : st.game_over = false → 0 < st.lives) :
    (gemTick inp st).1.game_over = false → 0 < (gemTick inp st).1.lives := by
  by_cases hgo : st.game_over
  · unfold gemTick
    simp [hgo]
  · have hgo' : st.game_over = false := by simpa using hgo
    have hf := gemTick_fields inp st hgo'
    rw [hf.1, hf.2, gemResolveStep_lives]
    intro hrun
    have hiff := gemResolveStep_gameOver inp st
    have hnot : ¬ (st.game_over = true ∨ (0 < st.lives ∧
        st.lives ≤ ((gemMovedShapes inp st).countP gOffB : Int) +
          ((gemMovedShapes inp st).countP
            (gMissZoneB (zones (inp.keys.foldl gemHandleKey st.zone_position))) : Int))) := by
      rw [← hiff]
      simp [hrun]
    have hpos := h hgo'
    rw [hgo'] at hnot
    simp at hnot
    have := hnot hpos
    omega

/-- In every reachable gemini session state lives is at most its starting
value 3, and positive while the session keeps running. -/
theorem gemRun_lives_bound (inps : List GTickInput) :
    ∀ st : GState, st.lives ≤ 3 → (st.game_over = false → 0 < st.lives) →
      (gemRun inps st).lives ≤ 3 ∧
      ((gemRun inps st).game_over = false → 0 < (gemRun inps st).lives) := by
  induction inps with
  | nil => intro st h1 h2; exact ⟨h1, h2⟩
  | cons i rest ih =>
    intro st h1 h2
    have hstep : gemRun (i :: rest) st = gemRun rest (gemTick i st).1 := rfl
    rw [hstep]
    exact ih (gemTick i st).1 (le_trans (gemTick_lives_mono i st) h1)
      (gemTick_pos i st h2)

end Gemini

/-! ## Claim theorems -/

/-- C1 (amended): in the chatgpt variant a shape whose bottom edge reaches or
passes the zone row's top edge is resolved exactly once in that tick — score
rises by one per match, lives fall by one per mismatch, the shape is removed,
one notification fires — and the match / zone-miss / off-screen-miss /
survivor classes partition the shapes, so no shape is resolved both at the
zone row and as an off-screen miss.  In the gemini variant the same
accounting holds, but resolution at the zone row additionally requires the
shape's rectangle to overlap some zone rectangle: a shape overlapping no zone
survives the tick. -/
theorem C1_resolution :
    (∀ (centre : Colour) (zy : Int) (shapes : List Chatgpt.FallingShape)
        (sc lv : Int) (sp : ℚ),
      (Chatgpt.processShapes centre zy shapes sc lv sp).score =
        sc + shapes.countP (Chatgpt.matchedB centre zy) ∧
      (Chatgpt.processShapes centre zy shapes sc lv sp).lives =
        lv - shapes.countP (Chatgpt.zoneMissB centre zy) -
          shapes.countP (Chatgpt.offMissB zy) ∧
      (Chatgpt.processShapes centre zy shapes sc lv sp).shapes =
        shapes.filter (Chatgpt.keptB zy) ∧
      (Chatgpt.processShapes centre zy shapes sc lv sp).events =
        shapes.filterMap (Chatgpt.eventOf centre zy) ∧
      shapes.countP (Chatgpt.matchedB centre zy) +
        shapes.countP (Chatgpt.zoneMissB centre zy) +
        shapes.countP (Chatgpt.offMissB zy) +
        shapes.countP (Chatgpt.keptB zy) = shapes.length) ∧
    (∀ (zs : List Gemini.Zone) (shapes : List Gemini.GShape)
        (sc hi lv sp : Int) (dl : ℚ) (go : Bool),
      (Gemini.gemProcess zs shapes sc hi lv sp dl go).score =
        sc + shapes.countP (Gemini.gMatchB zs) ∧
      (Gemini.gemProcess zs shapes sc hi lv sp dl go).lives =
        lv - shapes.countP Gemini.gOffB - shapes.countP (Gemini.gMissZoneB zs) ∧
      (Gemini.gemProcess zs shapes sc hi lv sp dl go).shapes =
        shapes.filter (Gemini.gKeptB zs) ∧
      shapes.countP (Gemini.gMatchB zs) + shapes.countP (Gemini.gMissZoneB zs) +
        shapes.countP Gemini.gOffB + shapes.countP (Gemini.gKeptB zs) =
        shapes.length) := by
  constructor
  · intro centre zy shapes sc lv sp
    have h := Chatgpt.processShapes_spec centre zy shapes sc lv sp
    exact ⟨h.1, h.2.1, h.2.2.1, h.2.2.2, Chatgpt.countP_partition centre zy shapes⟩
  · intro zs shapes sc hi lv sp dl go
    exact ⟨Gemini.gemProcess_score zs shapes sc hi lv sp dl go,
      Gemini.gemProcess_lives zs shapes sc hi lv sp dl go,
      Gemini.gemProcess_shapes zs shapes sc hi lv sp dl go,
      Gemini.gemCountP_partition zs shapes⟩

set_option maxRecDepth 100000 in
/-- C1 counterexample: in the reachable gemini run `geminiGapRun` (left key on
tick 0, one red shape spawned at x = 500), the shape's bottom edge
(715 + 40 = 755) has passed the zone row's top edge (750), yet after that tick
the shape is still live and neither score nor lives changed — it was not
resolved in that tick, against the claim. -/
theorem C1_counterexample :
    geminiGapRun.shapes =
      [{ shape_type := .circle, color := .RED,
         rect := { x := 500, y := 715, w := 40, h := 40 } }] ∧
    geminiGapRun.lives = 3 ∧ geminiGapRun.score = 0 ∧
    geminiGapRun.game_over = false ∧
    715 + 40 ≥ Gemini.screen_height - Gemini.zone_height := by
  with_unfolding_all decide

/-- C2 (amended): in both variants, in every reachable session state `lives`
is at most its starting value `NUM_LIVES` (3), a running tick never raises
`lives`, and the session transitions to GameOver exactly when `lives` is ≤ 0
after the tick's resolutions — for gemini this uses the proved invariant that
`lives` is positive in every reachable still-running state, under which the
per-decrement `lives == 0` test fires iff the tick ends at or below 0.  But
0 is not a lower bound: several same-tick misses can push `lives` below 0. -/
theorem C2_lives_bound :
    (∀ (inps : List Chatgpt.TickInput) (hs : Int),
      (Chatgpt.run inps (Chatgpt.initState hs)).lives ≤ Chatgpt.NUM_LIVES) ∧
    (∀ (inp : Chatgpt.TickInput) (st : Chatgpt.GameState),
      st.game_state = .playing →
        (Chatgpt.tick inp st).1.lives ≤ st.lives ∧
        ((Chatgpt.tick inp st).1.game_state = .gameover ↔
          (Chatgpt.tick inp st).1.lives ≤ 0)) ∧
    (∀ (inps : List Gemini.GTickInput) (hs : Int),
      (Gemini.gemRun inps (Gemini.gemInit hs)).lives ≤ 3 ∧
      ((Gemini.gemRun inps (Gemini.gemInit hs)).game_over = false →
        0 < (Gemini.gemRun inps (Gemini.gemInit hs)).lives)) ∧
    (∀ (inp : Gemini.GTickInput) (st : Gemini.GState),
      st.game_over = false → 0 < st.lives →
        (Gemini.gemTick inp st).1.lives ≤ st.lives ∧
        ((Gemini.gemTick inp st).1.game_over = true ↔
          (Gemini.gemTick inp st).1.lives ≤ 0)) := by
  refine ⟨?_, ?_, ?_, ?_⟩
  · intro inps hs
    exact Chatgpt.run_lives_le inps hs
  · intro inp st h
    obtain ⟨c, hc⟩ := Chatgpt.tick_playing inp st h
    rw [hc]
    have hl' : ({ st with collector := c } : Chatgpt.GameState).lives = st.lives := rfl
    have hgs : ({ st with collector := c } : Chatgpt.GameState).game_state =
      Chatgpt.GStateTag.playing := h
    constructor
    · have h2 := Chatgpt.playingUpdate_lives inp { st with collector := c }
      have h3 := Chatgpt.resolveStep_lives_le inp { st with collector := c }
      omega
    · rw [Chatgpt.playingUpdate_game_state, Chatgpt.playingUpdate_lives, hgs]
      by_cases hl : (Chatgpt.resolveStep inp { st with collector := c }).lives ≤ 0
      · simp [hl]
      · simp [hl]
  · intro inps hs
    exact Gemini.gemRun_lives_bound inps (Gemini.gemInit hs) (by norm_num [Gemini.gemInit])
      (fun _ => by norm_num [Gemini.gemInit])
  · intro inp st h hl
    refine ⟨Gemini.gemTick_lives_mono inp st, ?_⟩
    have hf := Gemini.gemTick_fields inp st h
    rw [hf.1, hf.2, Gemini.gemResolveStep_gameOver, Gemini.gemResolveStep_lives, h]
    simp only [Bool.false_eq_true, false_or]
    constructor
    · intro hcase
      omega
    · intro hcase
      exact ⟨hl, by omega⟩

/-- C2 witness: the bounds and both game-over characterizations instantiated
at concrete runs, ticks and states. -/
theorem C2_witness :
    ((Chatgpt.run [] (Chatgpt.initState 0)).lives ≤ Chatgpt.NUM_LIVES ∧
    ((Chatgpt.tick
        { keys := [], now := 0, spawnColour := .RED, spawnKind := .circle, spawnX := 300 }
        { game_state := .playing, high_score := 0, collector := .init, shapes := [],
          score := 0, lives := 3, current_fall_speed := 3, last_spawn_time := 0 }).1.game_state =
        Chatgpt.GStateTag.gameover ↔
      (Chatgpt.tick
        { keys := [], now := 0, spawnColour := .RED, spawnKind := .circle, spawnX := 300 }
        { game_state := .playing, high_score := 0, collector := .init, shapes := [],
          score := 0, lives := 3, current_fall_speed := 3, last_spawn_time := 0 }).1.lives ≤ 0)) ∧
    ((Gemini.gemRun [] (Gemini.gemInit 0)).lives ≤ 3 ∧
    ((Gemini.gemTick
        { keys := [], now := 0, spawnKind := .circle, spawnColor := .RED, spawnX := 0 }
        (Gemini.gemInit 0)).1.game_over = true ↔
      (Gemini.gemTick
        { keys := [], now := 0, spawnKind := .circle, spawnColor := .RED, spawnX := 0 }
        (Gemini.gemInit 0)).1.lives ≤ 0)) :=
  ⟨⟨C2_lives_bound.1 [] 0, (C2_lives_bound.2.1 _ _ rfl).2⟩,
   ⟨(C2_lives_bound.2.2.1 [] 0).1,
    (C2_lives_bound.2.2.2 _ (Gemini.gemInit 0) rfl (by norm_num [Gemini.gemInit])).2⟩⟩

set_option maxRecDepth 100000 in
/-- C2 counterexample: in the reachable chatgpt run `chatgptLivesRun`, two red
shapes of different speeds cross the zone row in the same tick while one life
remains, so the session ends with `lives = -1`: `lives` leaves `[0, NUM_LIVES]`
and GameOver is entered with `lives` strictly below 0, against the claim. -/
theorem C2_counterexample :
    chatgptLivesRun.lives = -1 ∧
    chatgptLivesRun.game_state = Chatgpt.GStateTag.gameover := by
  with_unfolding_all decide

/-- C3 (amended): in the chatgpt variant rotation is cyclic over exactly 3
positions with no clamping: a rotate-left followed by a rotate-right (and
vice versa) restores the active colour from any offset, and three rotations
in the same direction are the identity.  In the gemini variant the offset is
clamped to the ends instead (see the counterexample), so the round trip
fails at the end positions. -/
theorem C3_rotation (z : Chatgpt.CollectorZones) :
    (z.move_left.move_right).get_centre_colour = z.get_centre_colour ∧
    (z.move_right.move_left).get_centre_colour = z.get_centre_colour ∧
    (z.move_left.move_left.move_left).get_centre_colour = z.get_centre_colour ∧
    (z.move_right.move_right.move_right).get_centre_colour = z.get_centre_colour := by
  have h1 : (((z.index - 1) % 3 + 1) % 3 + 1) % 3 = (z.index + 1) % 3 := by omega
  have h2 : (((z.index + 1) % 3 - 1) % 3 + 1) % 3 = (z.index + 1) % 3 := by omega
  have h3 : ((((z.index - 1) % 3 - 1) % 3 - 1) % 3 + 1) % 3 = (z.index + 1) % 3 := by
    omega
  have h4 : ((((z.index + 1) % 3 + 1) % 3 + 1) % 3 + 1) % 3 = (z.index + 1) % 3 := by
    omega
  refine ⟨?_, ?_, ?_, ?_⟩ <;>
    simp only [Chatgpt.CollectorZones.move_left, Chatgpt.CollectorZones.move_right,
      Chatgpt.CollectorZones.get_centre_colour]
  · rw [h1]
  · rw [h2]
  · rw [h3]
  · rw [h4]

/-- C3 counterexample: the gemini zone offset, reachable at the end position 0
after one left key, is clamped there — a further rotate-left stays at 0, and
a rotate-left followed by a rotate-right from 0 ends at 1, not back at 0, so
rotation is not cyclic and the round trip fails. -/
theorem C3_counterexample :
    (geminiClampRun [[.leftK]]).zone_position = 0 ∧
    (geminiClampRun [[.leftK], [.leftK]]).zone_position = 0 ∧
    (geminiClampRun [[.leftK], [.leftK], [.rightK]]).zone_position = 1 := by
  with_unfolding_all decide

/-- C4: a shape that exits the bottom of the playfield without satisfying the
zone-row contact condition is resolved as a miss, not silently discarded: in
the chatgpt variant such a shape loses exactly one life, fires one miss
notification and is removed, and no off-screen shape ever survives a
resolution pass; in the gemini variant a shape below the screen likewise
loses exactly one life, fires a miss notification and is removed, and never
survives. -/
theorem C4_offscreen_miss :
    (∀ (centre : Colour) (zy : Int) (s : Chatgpt.FallingShape) (sc lv : Int) (sp : ℚ),
      Chatgpt.zoneHitB zy s = false → s.is_off_screen = true →
        Chatgpt.processShapes centre zy [s] sc lv sp =
          { score := sc, lives := lv - 1, speed := sp, shapes := [],
            events := [Event.missS] }) ∧
    (∀ (centre : Colour) (zy : Int) (shapes : List Chatgpt.FallingShape)
        (sc lv : Int) (sp : ℚ),
      ∀ s' ∈ (Chatgpt.processShapes centre zy shapes sc lv sp).shapes,
        s'.is_off_screen = false) ∧
    (∀ (zs : List Gemini.Zone) (s : Gemini.GShape) (sc hi lv sp : Int) (dl : ℚ)
        (go : Bool),
      s.rect.y > Gemini.screen_height →
        Gemini.gemProcess zs [s] sc hi lv sp dl go =
          { score := sc, high_score := hi, lives := lv - 1, speed := sp, delay := dl,
            game_over := go || decide (lv - 1 = 0), shapes := [],
            events := if lv - 1 = 0 then [Event.missS, Event.gameOverS]
              else [Event.missS] }) ∧
    (∀ (zs : List Gemini.Zone) (shapes : List Gemini.GShape) (s : Gemini.GShape)
        (sc hi lv sp : Int) (dl : ℚ) (go : Bool),
      s.rect.y > Gemini.screen_height →
        s ∉ (Gemini.gemProcess zs shapes sc hi lv sp dl go).shapes) := by
  refine ⟨?_, ?_, ?_, ?_⟩
  · intro centre zy s sc lv sp h1 h2
    simp [Chatgpt.processShapes, h1, h2]
  · intro centre zy shapes sc lv sp s' hs'
    rw [(Chatgpt.processShapes_spec centre zy shapes sc lv sp).2.2.1] at hs'
    have := (List.mem_filter.mp hs').2
    simp [Chatgpt.keptB] at this
    exact this.2
  · intro zs s sc hi lv sp dl go h
    by_cases hl : lv - 1 = 0 <;> simp [Gemini.gemProcess, h, hl]
  · intro zs shapes s sc hi lv sp dl go h hmem
    rw [Gemini.gemProcess_shapes] at hmem
    have := (List.mem_filter.mp hmem).2
    simp [Gemini.gKeptB, Gemini.gOffB] at this
    omega

/-- C4 witness: the off-screen-miss resolutions instantiated at concrete
shapes below the respective playfields. -/
theorem C4_witness :
    Chatgpt.processShapes Colour.RED 900
        [{ colour := .RED, shape_type := .circle, x := 300, y := 850, speed := 3,
           size := 30 }] 0 3 3 =
      { score := 0, lives := 2, speed := 3, shapes := [], events := [Event.missS] } ∧
    Gemini.gemProcess (Gemini.zones 1)
        [{ shape_type := .circle, color := .RED,
           rect := { x := 300, y := 900, w := 40, h := 40 } }] 0 0 3 5 (3/2) false =
      { score := 0, high_score := 0, lives := 2, speed := 5, delay := 3/2,
        game_over := false, shapes := [], events := [Event.missS] } := by
  constructor
  · have h := C4_offscreen_miss.1 Colour.RED 900
      { colour := .RED, shape_type := .circle, x := 300, y := 850, speed := 3, size := 30 }
      0 3 3 (by with_unfolding_all decide) (by with_unfolding_all decide)
    rw [h]
    norm_num
  · have h := C4_offscreen_miss.2.2.1 (Gemini.zones 1)
      { shape_type := .circle, color := .RED,
        rect := { x := 300, y := 900, w := 40, h := 40 } }
      0 0 3 5 (3/2) false (by decide)
    rw [h]
    norm_num

/-- C5 (amended): on the chatgpt Playing-to-GameOver transition the store is
written with the session's final score if and only if that score strictly
exceeds the previously known high score, and otherwise the tracked high
score is unchanged (and no write happens while Playing continues).  The
gemini variant instead performs one unconditional store write whenever its
loop exits on game over, with its tracked high-score value — so the stored
value still changes only when exceeded, but a write occurs regardless. -/
theorem C5_highscore :
    (∀ (inp : Chatgpt.TickInput) (st : Chatgpt.GameState),
      st.game_state = .playing →
        saveVals (Chatgpt.tick inp st).2 =
          (if (Chatgpt.tick inp st).1.game_state = Chatgpt.GStateTag.gameover ∧
              (Chatgpt.tick inp st).1.score > st.high_score
           then [(Chatgpt.tick inp st).1.score] else []) ∧
        (Chatgpt.tick inp st).1.high_score =
          (if (Chatgpt.tick inp st).1.game_state = Chatgpt.GStateTag.gameover ∧
              (Chatgpt.tick inp st).1.score > st.high_score
           then (Chatgpt.tick inp st).1.score else st.high_score)) ∧
    (∀ (hs : Int) (inps : List Gemini.GTickInput),
      (Gemini.gemRunE inps (Gemini.gemInit hs)).1.game_over = true →
        saveVals (Gemini.gemSession hs inps).2 =
          [(Gemini.gemRunE inps (Gemini.gemInit hs)).1.high_score]) := by
  constructor
  · intro inp st h
    obtain ⟨c, hc⟩ := Chatgpt.tick_playing inp st h
    rw [hc]
    set st' : Chatgpt.GameState := { st with collector := c } with hst'
    have hhs : st'.high_score = st.high_score := by rw [hst']
    have hgs : st'.game_state = Chatgpt.GStateTag.playing := by rw [hst']; exact h
    have hnos : (Chatgpt.resolveStep inp st').events.filterMap
        (fun e => match e with | Event.save n => some n | _ => none) = [] := by
      unfold Chatgpt.resolveStep
      rw [(Chatgpt.processShapes_spec _ _ _ _ _ _).2.2.2]
      exact Chatgpt.saveVals_filterMap_eventOf _ _ _
    rw [Chatgpt.playingUpdate_events, Chatgpt.playingUpdate_game_state,
      Chatgpt.playingUpdate_score, Chatgpt.playingUpdate_high_score, hhs, hgs]
    by_cases hl : (Chatgpt.resolveStep inp st').lives ≤ 0
    · by_cases hsc : (Chatgpt.resolveStep inp st').score > st.high_score
      · simp [hl, hsc, saveVals, List.filterMap_append, hnos]
      · simp [hl, hsc, saveVals, List.filterMap_append, hnos]
    · simp [hl, saveVals, hnos]
  · intro hs inps h
    unfold Gemini.gemSession
    dsimp only
    rw [if_pos h, saveVals, List.filterMap_append]
    have h1 : (Gemini.gemRunE inps (Gemini.gemInit hs)).2.filterMap
        (fun e => match e with | Event.save n => some n | _ => none) = [] :=
      Gemini.gemRunE_noSave inps (Gemini.gemInit hs)
    rw [h1]
    rfl

set_option maxRecDepth 100000 in
/-- C5 witness: the conditional chatgpt write at a concrete Playing tick, and
the gemini session write at the end of the `geminiLowScoreSession` inputs. -/
theorem C5_witness :
    saveVals (Chatgpt.tick
        { keys := [], now := 0, spawnColour := .RED, spawnKind := .circle, spawnX := 300 }
        { game_state := .playing, high_score := 7, collector := .init, shapes := [],
          score := 0, lives := 3, current_fall_speed := 3, last_spawn_time := 0 }).2 =
      (if (Chatgpt.tick
        { keys := [], now := 0, spawnColour := .RED, spawnKind := .circle, spawnX := 300 }
        { game_state := .playing, high_score := 7, collector := .init, shapes := [],
          score := 0, lives := 3, current_fall_speed := 3,
          last_spawn_time := 0 }).1.game_state = Chatgpt.GStateTag.gameover ∧
          (Chatgpt.tick
        { keys := [], now := 0, spawnColour := .RED, spawnKind := .circle, spawnX := 300 }
        { game_state := .playing, high_score := 7, collector := .init, shapes := [],
          score := 0, lives := 3, current_fall_speed := 3,
          last_spawn_time := 0 }).1.score > 7
       then [(Chatgpt.tick
        { keys := [], now := 0, spawnColour := .RED, spawnKind := .circle, spawnX := 300 }
        { game_state := .playing, high_score := 7, collector := .init, shapes := [],
          score := 0, lives := 3, current_fall_speed := 3,
          last_spawn_time := 0 }).1.score] else []) ∧
    saveVals (Gemini.gemSession 5 ((List.range 153).map geminiLowScoreInput)).2 =
      [(Gemini.gemRunE ((List.range 153).map geminiLowScoreInput)
        (Gemini.gemInit 5)).1.high_score] :=
  ⟨(C5_highscore.1 _ _ rfl).1,
   C5_highscore.2 5 ((List.range 153).map geminiLowScoreInput)
     (by with_unfolding_all decide)⟩

/-- C6 (amended): in the chatgpt variant a newly spawned shape is assigned
the session's current fall speed at spawn time, `update` never changes a
shape's speed, and after any Playing tick every live shape carries either
the pre-tick session speed (a fresh spawn) or the speed of some shape
already in flight — speed increments are never retroactive.  In the gemini
variant shapes carry no speed at all and move by the shared session speed,
so an increment does apply to shapes already in flight (see the
counterexample). -/
theorem C6_spawn_speed :
    (∀ (c : Colour) (k : ShapeKind) (x : Int) (v : ℚ),
      (Chatgpt.FallingShape.spawn c k x v).speed = v) ∧
    (∀ s : Chatgpt.FallingShape, s.update.speed = s.speed) ∧
    (∀ (inp : Chatgpt.TickInput) (st : Chatgpt.GameState),
      st.game_state = .playing →
        ∀ s' ∈ (Chatgpt.tick inp st).1.shapes,
          s'.speed = st.current_fall_speed ∨ ∃ s ∈ st.shapes, s'.speed = s.speed) := by
  refine ⟨fun c k x v => rfl, fun s => rfl, ?_⟩
  intro inp st h s' hs'
  obtain ⟨c, hc⟩ := Chatgpt.tick_playing inp st h
  rw [hc, Chatgpt.playingUpdate_shapes] at hs'
  unfold Chatgpt.resolveStep at hs'
  rw [(Chatgpt.processShapes_spec _ _ _ _ _ _).2.2.1] at hs'
  have h1 := (List.mem_filter.mp hs').1
  unfold Chatgpt.movedShapes at h1
  obtain ⟨s0, hs0, hval⟩ := List.mem_map.mp h1
  have hspeed : s'.speed = s0.speed := by rw [← hval]; rfl
  unfold Chatgpt.spawnStep at hs0
  by_cases hspawn : inp.now -
      ({ st with collector := c } : Chatgpt.GameState).last_spawn_time >
      Chatgpt.SHAPE_SPAWN_INTERVAL
  · rw [if_pos hspawn] at hs0
    rcases List.mem_append.mp hs0 with hmem | hone
    · exact Or.inr ⟨s0, hmem, hspeed⟩
    · left
      rw [hspeed, List.mem_singleton.mp hone]
      rfl
  · rw [if_neg hspawn] at hs0
    exact Or.inr ⟨s0, hs0, hspeed⟩

/-- C6 witness: the speed alternative instantiated at a concrete Playing
tick. -/
theorem C6_witness :
    ∀ s' ∈ (Chatgpt.tick
        { keys := [], now := 0, spawnColour := .RED, spawnKind := .circle, spawnX := 300 }
        { game_state := .playing, high_score := 0, collector := .init, shapes := [],
          score := 0, lives := 3, current_fall_speed := 3, last_spawn_time := 0 }).1.shapes,
      s'.speed = 3 ∨ ∃ s ∈ ([] : List Chatgpt.FallingShape), s'.speed = s.speed :=
  C6_spawn_speed.2.2 _ _ rfl

set_option maxRecDepth 100000 in
/-- C6 counterexample: in the reachable gemini run `geminiSpeedRun`, the red
shape spawned on tick 120 — when the session speed was 5 — sits at y = 215
after tick 170, where the twentieth match raises the speed to 6; on tick 171
it moves to y = 221, i.e. by 6, not by the speed in force when it spawned:
the increment applied retroactively to a shape in flight. -/
theorem C6_counterexample :
    (geminiSpeedRun 120).shape_speed = 5 ∧
    (geminiSpeedRun 121).shape_speed = 5 ∧
    (geminiSpeedRun 171).shape_speed = 6 ∧
    (geminiSpeedRun 171).shapes =
      [{ shape_type := .square, color := .RED,
         rect := { x := 250, y := 215, w := 40, h := 40 } }] ∧
    (geminiSpeedRun 172).shapes =
      [{ shape_type := .square, color := .RED,
         rect := { x := 250, y := 221, w := 40, h := 40 } }] := by
  with_unfolding_all decide

/-- C7: in both variants a tick changes the score by exactly the number of
match notifications it emits — one point per successful match, nothing else
moves the score — and the score never decreases. -/
theorem C7_score_monotone :
    (∀ (inp : Chatgpt.TickInput) (st : Chatgpt.GameState),
      st.game_state = .playing →
        (Chatgpt.tick inp st).1.score =
          st.score + ((Chatgpt.tick inp st).2.countP fun e =>
            decide (e = Event.matchS) : Int) ∧
        st.score ≤ (Chatgpt.tick inp st).1.score) ∧
    (∀ (inp : Gemini.GTickInput) (st : Gemini.GState),
      (Gemini.gemTick inp st).1.score =
        st.score + ((Gemini.gemTick inp st).2.countP fun e =>
          decide (e = Event.matchS) : Int) ∧
      st.score ≤ (Gemini.gemTick inp st).1.score) := by
  constructor
  · intro inp st h
    obtain ⟨c, hc⟩ := Chatgpt.tick_playing inp st h
    rw [hc]
    have hsc : ({ st with collector := c } : Chatgpt.GameState).score = st.score := rfl
    have hev : ((Chatgpt.resolveStep inp { st with collector := c }).events.countP
        fun e => decide (e = Event.matchS)) =
        (Chatgpt.movedShapes inp { st with collector := c }).countP
          (Chatgpt.matchedB ({ st with collector := c } :
            Chatgpt.GameState).collector.get_centre_colour
            ({ st with collector := c } : Chatgpt.GameState).collector.y) := by
      unfold Chatgpt.resolveStep
      rw [(Chatgpt.processShapes_spec _ _ _ _ _ _).2.2.2]
      exact Chatgpt.matchEvents_filterMap_eventOf _ _ _
    have hr : (Chatgpt.resolveStep inp { st with collector := c }).score =
        st.score + ((Chatgpt.movedShapes inp { st with collector := c }).countP
          (Chatgpt.matchedB ({ st with collector := c } :
            Chatgpt.GameState).collector.get_centre_colour
            ({ st with collector := c } : Chatgpt.GameState).collector.y) : Int) := by
      unfold Chatgpt.resolveStep
      rw [(Chatgpt.processShapes_spec _ _ _ _ _ _).1]
    rw [Chatgpt.playingUpdate_score, Chatgpt.playingUpdate_events]
    by_cases hl : (Chatgpt.resolveStep inp { st with collector := c }).lives ≤ 0
    · by_cases hsv : (Chatgpt.resolveStep inp { st with collector := c }).score >
          ({ st with collector := c } : Chatgpt.GameState).high_score
      · simp only [hl, hsv, if_true, if_pos, List.countP_append]
        constructor
        · rw [hr]
          simp [hev]
        · rw [hr]; omega
      · simp only [hl, hsv, if_true, if_neg, ite_false, List.countP_append]
        constructor
        · rw [hr]
          simp [hev]
        · rw [hr]; omega
    · simp only [hl, ite_false, if_neg]
      constructor
      · rw [hr, hev]
      · rw [hr]; omega
  · intro inp st
    by_cases h : st.game_over
    · unfold Gemini.gemTick
      rw [if_pos h]
      simp
    · have ht := Gemini.gemTick_not_over inp st (by simpa using h)
      rw [ht.1, ht.2]
      have hr : (Gemini.gemResolveStep inp st).score =
          st.score + ((Gemini.gemMovedShapes inp st).countP
            (Gemini.gMatchB (Gemini.zones
              (inp.keys.foldl Gemini.gemHandleKey st.zone_position))) : Int) := by
        unfold Gemini.gemResolveStep
        rw [Gemini.gemProcess_score]
      have hev : ((Gemini.gemResolveStep inp st).events.countP
          fun e => decide (e = Event.matchS)) =
          (Gemini.gemMovedShapes inp st).countP
            (Gemini.gMatchB (Gemini.zones
              (inp.keys.foldl Gemini.gemHandleKey st.zone_position))) := by
        unfold Gemini.gemResolveStep
        rw [Gemini.gemProcess_matchEvents]
      constructor
      · rw [hr, hev]
      · rw [hr]; omega

/-- C7 witness: the score accounting instantiated at a concrete Playing
tick. -/
theorem C7_witness :
    ((Chatgpt.tick
        { keys := [], now := 0, spawnColour := .RED, spawnKind := .circle, spawnX := 300 }
        { game_state := .playing, high_score := 0, collector := .init, shapes := [],
          score := 0, lives := 3, current_fall_speed := 3, last_spawn_time := 0 }).1.score =
      0 + ((Chatgpt.tick
        { keys := [], now := 0, spawnColour := .RED, spawnKind := .circle, spawnX := 300 }
        { game_state := .playing, high_score := 0, collector := .init, shapes := [],
          score := 0, lives := 3, current_fall_speed := 3,
          last_spawn_time := 0 }).2.countP fun e => decide (e = Event.matchS) : Int)) :=
  (C7_score_monotone.1 _ _ rfl).1

/-- C8 (amended): the chatgpt loader returns 0 both when the store file is
absent and when its content fails to parse as an integer (and the parsed
value when it does parse); the gemini loader returns 0 only for an absent
file — unparsable content raises an uncaught `ValueError` instead of
recovering. -/
theorem C8_load_default :
    Chatgpt.load_high_score none = 0 ∧
    (∀ s : String, pyInt s.trim = none → Chatgpt.load_high_score (some s) = 0) ∧
    (∀ (s : String) (n : Int), pyInt s.trim = some n →
      Chatgpt.load_high_score (some s) = n) ∧
    Gemini.load_high_score none = Except.ok 0 ∧
    (∀ s : String, pyInt s = none →
      Gemini.load_high_score (some s) = Except.error ()) := by
  refine ⟨rfl, ?_, ?_, rfl, ?_⟩
  · intro s h
    simp [Chatgpt.load_high_score, h]
  · intro s n h
    simp [Chatgpt.load_high_score, h]
  · intro s h
    simp [Gemini.load_high_score, h]

/-- C8 witness: the loaders instantiated at the concrete contents `"abc"`
(unparsable) and `" 42 "` (parsable). -/
theorem C8_witness :
    Chatgpt.load_high_score (some "abc") = 0 ∧
    Chatgpt.load_high_score (some " 42 ") = 42 ∧
    Gemini.load_high_score (some "abc") = Except.error () :=
  ⟨C8_load_default.2.1 "abc" (by with_unfolding_all decide),
   C8_load_default.2.2.1 " 42 " 42 (by with_unfolding_all decide),
   C8_load_default.2.2.2.2 "abc" (by with_unfolding_all decide)⟩

/-- C8 counterexample: the gemini loader applied to an existing store file
holding `"abc"` does not return 0 — it propagates an error, against the
claim that both failure cases recover locally in both variants. -/
theorem C8_counterexample :
    Gemini.load_high_score (some "abc") = Except.error () := by
  with_unfolding_all rfl

set_option maxRecDepth 100000 in
/-- C10: in the reachable gemini run `geminiSideMatchRun` the zones stay at
their default offset (centre zone GREEN) and the only spawned shape is RED
at x = 50, yet the run ends with score 1 and no life lost: the shape was
matched by the red zone its rectangle spatially overlaps — a zone other than
the centre one — so the overlapped zone, determined by the shape's
horizontal position, decides the match, not a single active slot. -/
theorem C10_overlap_match :
    geminiSideMatchRun.score = 1 ∧ geminiSideMatchRun.lives = 3 ∧
    geminiSideMatchRun.shapes = [] ∧ geminiSideMatchRun.zone_position = 1 ∧
    (Gemini.zones 1).map Gemini.Zone.color =
      [Colour.RED, Colour.GREEN, Colour.BLUE] ∧
    Colour.RED ≠ Colour.GREEN := by
  with_unfolding_all decide

/-- After `n` update ticks a chatgpt shape sits at `y + n * speed`, its speed
and size untouched. -/
theorem update_iterate (s : Chatgpt.FallingShape) (n : Nat) :
    (Chatgpt.FallingShape.update^[n] s).y = s.y + n * s.speed ∧
    (Chatgpt.FallingShape.update^[n] s).speed = s.speed ∧
    (Chatgpt.FallingShape.update^[n] s).size = s.size := by
  induction n with
  | zero => simp
  | succ n ih =>
    rw [Function.iterate_succ_apply']
    refine ⟨?_, ?_, ?_⟩
    · show (Chatgpt.FallingShape.update^[n] s).y +
        (Chatgpt.FallingShape.update^[n] s).speed = s.y + (n + 1 : ℕ) * s.speed
      rw [ih.1, ih.2.1]
      push_cast
      ring
    · exact ih.2.1
    · exact ih.2.2

/-- C9: a chatgpt shape with fall speed `S > 0` spawned above the top edge at
vertical position `startY` satisfies the zone-row contact condition after
tick `n` if and only if `n ≥ ⌈(zoneY - startY) / S⌉`, where
`zoneY = collector.y - size` is the y-coordinate at which the contact
condition `y + size ≥ collector.y` first holds — so the first contact happens
after exactly `⌈(zoneY - startY) / S⌉` ticks, deterministically. -/
theorem C9_arrival (c : Colour) (k : ShapeKind) (x : Int) (startY S : ℚ)
    (hS : 0 < S) (hTop : startY < 0) (n : Nat) :
    (Chatgpt.zoneHitB Chatgpt.CollectorZones.init.y
        (Chatgpt.FallingShape.update^[n]
          { colour := c, shape_type := k, x := x, y := startY, speed := S,
            size := 30 }) = true) ↔
      ⌈(((Chatgpt.CollectorZones.init.y : ℚ) - 30) - startY) / S⌉ ≤ (n : ℤ) := by
  have hit := update_iterate
    { colour := c, shape_type := k, x := x, y := startY, speed := S, size := 30 } n
  rw [Chatgpt.zoneHitB, decide_eq_true_iff, hit.1, hit.2.2, Int.ceil_le,
    div_le_iff hS]
  push_cast
  constructor <;> intro h <;> linarith

/-- C9 witness: the spawned shape (`startY = -50`, `S = 3`) first reaches the
zone row on tick `⌈770/3⌉ = 257` and not on tick 256. -/
theorem C9_witness :
    (Chatgpt.zoneHitB Chatgpt.CollectorZones.init.y
      (Chatgpt.FallingShape.update^[257]
        { colour := .GREEN, shape_type := .circle, x := 300, y := -50, speed := 3,
          size := 30 }) = true) ∧
    ¬ (Chatgpt.zoneHitB Chatgpt.CollectorZones.init.y
      (Chatgpt.FallingShape.update^[256]
        { colour := .GREEN, shape_type := .circle, x := 300, y := -50, speed := 3,
          size := 30 }) = true) :=
  ⟨(C9_arrival .GREEN .circle 300 (-50) 3 (by norm_num) (by norm_num) 257).mpr
     (by
       rw [Int.ceil_le]
       norm_num [Chatgpt.CollectorZones.init, Chatgpt.HEIGHT, Chatgpt.BOTTOM_MARGIN]),
   fun hcontra => by
     have h2 := (C9_arrival .GREEN .circle 300 (-50) 3 (by norm_num) (by norm_num)
       256).mp hcontra
     rw [Int.ceil_le] at h2
     norm_num [Chatgpt.CollectorZones.init, Chatgpt.HEIGHT,
       Chatgpt.BOTTOM_MARGIN] at h2⟩

set_option maxRecDepth 100000 in
/-- C5 counterexample: in the reachable gemini session `geminiLowScoreSession`
the loaded high score is 5 and the final score is 0 — yet the session still
performs a store write (of the value 5) at game over, against the claim that
the store is written if and only if the final score strictly exceeds the
previously known high score. -/
theorem C5_counterexample :
    geminiLowScoreSession.1.score = 0 ∧
    geminiLowScoreSession.1.lives = 0 ∧
    geminiLowScoreSession.1.game_over = true ∧
    saveVals geminiLowScoreSession.2 = [5] := by
  with_unfolding_all decide
